import Mathlib

/-!
Shallow embedding of the `energy-py` experience memory
(`src/energy_py/agents/memory.py`) and the actor-critic update
(`src/energy_py/agents/actor_critic.py`), together with proofs about the
spec's claims on them.

Modelling conventions:
* Python/numpy floats are modelled by `Val` (a rational number or NaN);
  plain scalars where NaN can play no role are modelled by `ℚ`.
* numpy arrays are lists; a 2-d array is a list of rows.
* Fallible operations (numpy/pandas exceptions, `assert`) return `Except`.
* `np.random.randint(0, high, size)` is modelled by taking the list of
  generated indices as an explicit oracle argument; the bounds check
  (`ValueError: low >= high` whenever `high = 0`, raised even for
  `size = 0`) is part of the model.
-/

namespace EnergyPy

/-- A Python/numpy float: either an actual (rational) number or NaN. -/
inductive Val where
  | num (q : ℚ)
  | nan
deriving DecidableEq, Repr

/-- Model of `np.isnan`. -/
def Val.isNan : Val → Bool
  | .nan => true
  | .num _ => false

/-- The numeric value of a float, with NaN contributing `0` — this matches
pandas aggregation (`DataFrame.sum`, `groupby(...).sum()`), which skips NaN,
i.e. sums the non-NaN entries. -/
def Val.toQ : Val → ℚ
  | .num q => q
  | .nan => 0

/-- One step of experience, the 7-tuple appended by `Memory.add_experience`:
`(observation, action, reward, next_observation, terminal, step, episode)`. -/
structure Experience where
  observation : List Val
  action : List Val
  reward : Val
  next_observation : List Val
  terminal : Bool
  stepIdx : ℕ
  episode : ℕ
deriving DecidableEq, Repr

instance : Inhabited Experience :=
  ⟨⟨[], [], .num 0, [], false, 0, 0⟩⟩

/-- A value stored in the `info` dictionary (`self.memory.info[k].append(v)`):
either an array or a scalar. -/
inductive InfoVal where
  | arr (xs : List ℚ)
  | scalar (q : ℚ)
deriving DecidableEq, Repr

/-- The `Memory` object of `memory.py`.  `obsDim`/`actDim` stand for
`observation_space.shape[0]` and `action_space.shape[0]`; `length` is the
`memory_length` constructor argument; `info` and `outputs` are the two
`collections.defaultdict(list)` maps, modelled as append-logs of
key/value pairs (an empty defaultdict is `[]`). -/
structure Memory where
  obsDim : ℕ
  actDim : ℕ
  discount : ℚ
  length : ℕ
  experiences : List Experience
  info : List (String × InfoVal)
  outputs : List (String × InfoVal)
deriving DecidableEq, Repr

/-- Model of `Memory.reset`: `self.experiences = []`, `self.info = defaultdict(list)`,
`self.outputs = defaultdict(list)`. -/
def Memory.reset (m : Memory) : Memory :=
  { m with experiences := [], info := [], outputs := [] }

/-- Model of `Memory.add_experience`: appends one 7-tuple to `self.experiences`. -/
def Memory.add_experience (m : Memory) (observation action : List Val)
    (reward : Val) (next_observation : List Val) (terminal : Bool)
    (stepIdx episode : ℕ) : Memory :=
  { m with experiences := m.experiences ++
      [⟨observation, action, reward, next_observation, terminal, stepIdx, episode⟩] }

/-- The loop body of `Memory.calculate_returns`: iterate over the reversed
reward list, keeping the running return `R` and prepending each new `R`
(`returns.insert(0, R)`). -/
def calcLoop (discount : ℚ) : List ℚ → ℚ → List ℚ → List ℚ
  | [], _, acc => acc
  | r :: rest, R, acc => calcLoop discount rest (r + discount * R) ((r + discount * R) :: acc)

/-- Model of `Memory.calculate_returns`: `R = 0`; `for r in rewards[::-1]: R = r +
self.discount * R; returns.insert(0, R)`.  The final `rtns.reshape(-1, 1)`
only turns the list into a column vector, so the model keeps the flat list
of values in order.  (The logger statistics printed in between do not
affect the result.) -/
def Memory.calculate_returns (m : Memory) (rewards : List ℚ) : List ℚ :=
  calcLoop m.discount rewards.reverse 0 []

/-- Reference recursion for the discounted return of a reward list when the
return continuing after the last element is `R`. -/
def mcReturnsWith (discount R : ℚ) : List ℚ → List ℚ
  | [] => []
  | r :: rs => (r + discount * (mcReturnsWith discount R rs).headD R) :: mcReturnsWith discount R rs

theorem mcReturnsWith_length (discount R : ℚ) (l : List ℚ) :
    (mcReturnsWith discount R l).length = l.length := by
  induction l with
  | nil => rfl
  | cons r rs ih => simp [mcReturnsWith, ih]

theorem mcReturnsWith_append_singleton (discount R r : ℚ) (l : List ℚ) :
    mcReturnsWith discount R (l ++ [r]) =
      mcReturnsWith discount (r + discount * R) l ++ [r + discount * R] := by
  induction l with
  | nil => simp [mcReturnsWith]
  | cons x xs ih =>
      simp only [List.cons_append, mcReturnsWith, List.append_eq, ih]
      congr 1
      cases mcReturnsWith discount (r + discount * R) xs with
      | nil => simp
      | cons a as => simp

theorem calcLoop_eq (discount : ℚ) (rev : List ℚ) (R : ℚ) (acc : List ℚ) :
    calcLoop discount rev R acc = mcReturnsWith discount R rev.reverse ++ acc := by
  induction rev generalizing R acc with
  | nil => simp [calcLoop, mcReturnsWith]
  | cons r rest ih =>
      simp only [calcLoop, ih, List.reverse_cons,
        mcReturnsWith_append_singleton]
      simp

theorem calculate_returns_eq (m : Memory) (rewards : List ℚ) :
    m.calculate_returns rewards = mcReturnsWith m.discount 0 rewards := by
  simp [Memory.calculate_returns, calcLoop_eq]

theorem mcReturnsWith_getD (discount : ℚ) (l : List ℚ) (t : ℕ) (ht : t < l.length) :
    (mcReturnsWith discount 0 l).getD t 0 =
      l.getD t 0 + discount * (mcReturnsWith discount 0 l).getD (t + 1) 0 := by
  induction l generalizing t with
  | nil => simp at ht
  | cons r rs ih =>
      cases t with
      | zero =>
          simp only [mcReturnsWith, List.getD_cons_zero, List.getD_cons_succ]
          have : (mcReturnsWith discount 0 rs).headD 0 =
              (mcReturnsWith discount 0 rs).getD 0 0 := by
            cases mcReturnsWith discount 0 rs with
            | nil => rfl
            | cons a as => rfl
          rw [this]
      | succ t =>
          simp only [mcReturnsWith, List.getD_cons_succ]
          exact ih t (by simpa using Nat.lt_of_succ_lt_succ ht)

/-- Claim C1: `calculate_returns` satisfies the Monte-Carlo recurrence
`R_t = r_t + γ·R_{t+1}` (with `R = 0` past the last element, expressed via
`getD _ 0`), aligned index-by-index with the input rewards; in particular
for rewards `[1,1,1]` and discount `γ = 0.5` it yields `[1.75, 1.5, 1.0]`. -/
theorem calculate_returns_recurrence :
    (∀ (m : Memory) (rewards : List ℚ) (t : ℕ), t < rewards.length →
        (m.calculate_returns rewards).getD t 0 =
          rewards.getD t 0 + m.discount * (m.calculate_returns rewards).getD (t + 1) 0) ∧
      ∀ m : Memory, m.discount = 1 / 2 →
        m.calculate_returns [1, 1, 1] = [7/4, 3/2, 1] := by
  constructor
  · intro m rewards t ht
    rw [calculate_returns_eq]
    exact mcReturnsWith_getD m.discount rewards t ht
  · intro m hm
    rw [calculate_returns_eq, hm]
    norm_num [mcReturnsWith]

def memC1 : Memory := ⟨1, 1, 1/2, 10, [], [], []⟩

/-- Witness for C1 at the concrete input of the spec's example. -/
theorem calculate_returns_recurrence_witness :
    (memC1.calculate_returns [1, 1, 1]).getD 0 0 =
        ([1, 1, 1] : List ℚ).getD 0 0 +
          memC1.discount * (memC1.calculate_returns [1, 1, 1]).getD 1 0 ∧
      memC1.calculate_returns [1, 1, 1] = [7/4, 3/2, 1] :=
  ⟨calculate_returns_recurrence.1 memC1 [1, 1, 1] 0 (by decide),
   calculate_returns_recurrence.2 memC1 rfl⟩

theorem calcLoop_length (discount : ℚ) (rev : List ℚ) (R : ℚ) (acc : List ℚ) :
    (calcLoop discount rev R acc).length = rev.length + acc.length := by
  rw [calcLoop_eq]
  simp [mcReturnsWith_length]

/-- Claim C8: For every reward sequence (including the empty one) the output of
`calculate_returns` has the same length as its input. -/
theorem calculate_returns_length (m : Memory) (rewards : List ℚ) :
    (m.calculate_returns rewards).length = rewards.length := by
  simp [Memory.calculate_returns, calcLoop_length]

/-- Failure kinds of the memory operations: numpy/pandas `ValueError`,
numpy `IndexError`, and Python `assert` failure. -/
inductive MemErr where
  | valueError
  | indexError
  | assertionError
deriving DecidableEq, Repr

instance {ε α : Type} [DecidableEq ε] [DecidableEq α] :
    DecidableEq (Except ε α) := fun x y =>
  match x, y with
  | .ok a, .ok b =>
      if h : a = b then .isTrue (by rw [h])
      else .isFalse (by intro hc; cases hc; exact h rfl)
  | .ok _, .error _ => .isFalse (by intro hc; cases hc)
  | .error _, .ok _ => .isFalse (by intro hc; cases hc)
  | .error e, .error f =>
      if h : e = f then .isTrue (by rw [h])
      else .isFalse (by intro hc; cases hc; exact h rfl)

/-- The Python slice `self.experiences[-self.length:]`.  Note the `-0`
pitfall of Python slicing: for `length = 0` the slice `l[-0:] = l[0:]` is
the WHOLE list, not the empty suffix. -/
def lastSlice (L : ℕ) (l : List Experience) : List Experience :=
  if L = 0 then l else l.drop (l.length - L)

/-- Model of `Memory.get_random_batch`.  The indices produced by
`np.random.randint(low=0, high=len(memory), size=sample_size)` are the
oracle argument `idxs` (theorems constrain it by the randint contract:
`idxs.length = sample_size` and every index `< len(memory)`); `randint`
itself raises `ValueError: low >= high` whenever `len(memory) = 0`, even
for `size = 0`.  The final `memory[indicies].reshape(sample_size, -1)`
raises `ValueError` when `sample_size = 0` (numpy cannot infer the `-1`
dimension alongside a known 0 dimension) and otherwise yields one
flattened experience per sampled index, modelled as the list of sampled
experiences. -/
def Memory.get_random_batch (m : Memory) (batch_size : ℕ) (idxs : List ℕ) :
    Except MemErr (List Experience) :=
  let sample_size := min batch_size m.experiences.length
  let memory := lastSlice m.length m.experiences
  if memory.length = 0 then .error .valueError
  else if sample_size = 0 then .error .valueError
  else if idxs.length ≠ sample_size then .error .valueError
  else .ok (idxs.map fun i => memory.getD i default)

theorem get_random_batch_map (m : Memory) (batch_size : ℕ) (idxs : List ℕ)
    (h : (lastSlice m.length m.experiences).length ≠ 0)
    (hlen : idxs.length = min batch_size m.experiences.length)
    (hsz : min batch_size m.experiences.length ≠ 0) :
    m.get_random_batch batch_size idxs =
      .ok (idxs.map fun i => (lastSlice m.length m.experiences).getD i default) := by
  simp [Memory.get_random_batch, h, hlen, hsz]

theorem get_random_batch_zero (m : Memory) (B : ℕ) (idxs : List ℕ)
    (h : (lastSlice m.length m.experiences).length ≠ 0)
    (h0 : min B m.experiences.length = 0) :
    m.get_random_batch B idxs = .error .valueError := by
  simp [Memory.get_random_batch, h, h0]

theorem lastSlice_length (L : ℕ) (l : List Experience) :
    (lastSlice L l).length = if L = 0 then l.length else min L l.length := by
  by_cases h : L = 0
  · simp [lastSlice, h]
  · simp only [lastSlice, if_neg h, List.length_drop]
    omega

/-- The spec's "window size": the number of stored experiences inside the
most-recent-`max_length` sliding window, i.e. `min (number stored) max_length`. -/
def specWindowSize (m : Memory) : ℕ :=
  min m.experiences.length m.length

/-- The spec's "most recent `L` stored experiences". -/
def recentWindow (L : ℕ) (l : List Experience) : List Experience :=
  l.drop (l.length - L)

/-- A small concrete experience used in concrete evaluations. -/
def expAt (k : ℕ) : Experience :=
  ⟨[.num k], [.num 0], .num 0, [.num 0], false, k, 0⟩

def memC3 : Memory := ⟨1, 1, 9/10, 2, [expAt 0, expAt 1, expAt 2], [], []⟩

/-- Counterexample to claim C3: With `max_length = 2`, three stored experiences
and `batch_size = 3`, the code draws `sample_size = min(batch_size,
len(experiences)) = 3` rows — not `min(batch_size, window_size) = 2` as the
claim states: the cap uses the full experience count, not the window size. -/
theorem get_random_batch_size_counterexample :
    ∃ batch, memC3.get_random_batch 3 [0, 0, 0] = .ok batch ∧
      batch.length ≠ min 3 (specWindowSize memC3) := by
  refine ⟨[expAt 1, expAt 1, expAt 1], by decide, by decide⟩

/-- Amended claim C3: On a non-empty memory, `get_random_batch` with
`batch_size ≥ 1` returns exactly `min(batch_size, len(experiences))` rows —
the cap is the total number of stored experiences, not the sliding-window
size — while with `batch_size = 0` the final `reshape(0, -1)` raises
`ValueError` (numpy cannot infer `-1` alongside a 0 dimension); on an
empty memory it raises as well, see the C5 theorems. -/
theorem get_random_batch_size_amended (m : Memory) (B : ℕ) (idxs : List ℕ)
    (hne : m.experiences ≠ [])
    (hlen : idxs.length = min B m.experiences.length) :
    (1 ≤ B → ∃ batch, m.get_random_batch B idxs = .ok batch ∧
        batch.length = min B m.experiences.length) ∧
      (B = 0 → m.get_random_batch B idxs = .error .valueError) := by
  have hpos : 0 < m.experiences.length := List.length_pos.mpr hne
  have hwin : (lastSlice m.length m.experiences).length ≠ 0 := by
    rw [lastSlice_length]
    split <;> omega
  constructor
  · intro hB
    refine ⟨_, get_random_batch_map m B idxs hwin hlen (by omega), ?_⟩
    simp [hlen]
  · intro hB
    exact get_random_batch_zero m B idxs hwin (by omega)

/-- Witness for the amended C3: the three-row draw and the `batch_size = 0`
error, both at a concrete memory. -/
theorem get_random_batch_size_amended_witness :
    (∃ batch, memC3.get_random_batch 3 [0, 0, 0] = .ok batch ∧
        batch.length = min 3 memC3.experiences.length) ∧
      memC3.get_random_batch 0 [] = .error .valueError :=
  ⟨(get_random_batch_size_amended memC3 3 [0, 0, 0] (by decide) (by decide)).1 (by decide),
   (get_random_batch_size_amended memC3 0 [] (by decide) (by decide)).2 rfl⟩

def memC4 : Memory := ⟨1, 1, 9/10, 0, [expAt 0], [], []⟩

/-- Counterexample to claim C4: With `max_length = 0` and one stored experience,
the slice `experiences[-0:]` is the whole history, so the sampled row is
not an element of the most recent `0` experiences (the empty window): the
claim fails at `L = 0`. -/
theorem get_random_batch_window_counterexample :
    ∃ batch, memC4.get_random_batch 1 [0] = .ok batch ∧
      ∃ row ∈ batch, row ∉ recentWindow memC4.length memC4.experiences := by
  refine ⟨[expAt 0], by decide, expAt 0, by decide, by decide⟩

/-- Amended claim C4: For `max_length = L ≥ 1` (the Python `-0` slicing
pitfall excludes `L = 0`), every row of a batch returned by
`get_random_batch` lies inside the most recent `L` stored experiences,
whenever the sampled indices satisfy the `randint` bound. -/
theorem get_random_batch_window_amended (m : Memory) (B : ℕ) (idxs : List ℕ)
    (batch : List Experience)
    (hL : 1 ≤ m.length)
    (hmore : m.length < m.experiences.length)
    (hlen : idxs.length = min B m.experiences.length)
    (hvalid : ∀ i ∈ idxs, i < (lastSlice m.length m.experiences).length)
    (hok : m.get_random_batch B idxs = .ok batch) :
    ∀ row ∈ batch, row ∈ recentWindow m.length m.experiences := by
  have hwin : (lastSlice m.length m.experiences).length ≠ 0 := by
    rw [lastSlice_length]
    split <;> omega
  have hsz : min B m.experiences.length ≠ 0 := by
    intro h0
    rw [get_random_batch_zero m B idxs hwin h0] at hok
    exact Except.noConfusion hok
  rw [get_random_batch_map m B idxs hwin hlen hsz] at hok
  have hbatch : batch = idxs.map fun i => (lastSlice m.length m.experiences).getD i default := by
    cases hok
    rfl
  subst hbatch
  intro row hrow
  rcases List.mem_map.mp hrow with ⟨i, hi, hrow⟩
  have hil : i < (lastSlice m.length m.experiences).length := hvalid i hi
  have hmem : (lastSlice m.length m.experiences).getD i default ∈
      lastSlice m.length m.experiences := by
    rw [List.getD_eq_getElem _ _ hil]
    exact List.getElem_mem _
  have hslice : lastSlice m.length m.experiences = recentWindow m.length m.experiences := by
    unfold lastSlice recentWindow
    rw [if_neg (by omega)]
  rw [← hslice, ← hrow]
  exact hmem

def memC4w : Memory := ⟨1, 1, 9/10, 1, [expAt 0, expAt 1], [], []⟩

/-- Witness for the amended C4 at a concrete memory. -/
theorem get_random_batch_window_amended_witness :
    expAt 1 ∈ recentWindow memC4w.length memC4w.experiences :=
  get_random_batch_window_amended memC4w 1 [0] [expAt 1] (by decide) (by decide)
    (by decide) (by decide) (by decide) (expAt 1) (by decide)

def memC5 : Memory := ⟨1, 1, 9/10, 4, [expAt 0], [("loss", .scalar 1)], [("k", .scalar 2)]⟩

/-- Counterexample to claim C5: On an empty (freshly reset) memory,
`get_random_batch` does not return a zero-row batch: `np.random.randint(
low=0, high=0, size=0)` raises `ValueError: low >= high` (the bounds check
fires even for `size = 0`). -/
theorem reset_random_batch_counterexample :
    (memC5.reset).get_random_batch 4 [] = .error .valueError := by decide

/-- Amended claim C5: After `reset()` the experiences list, the `info` map
and the `outputs` map are all empty, but `get_random_batch` on the empty
memory raises `ValueError` for every batch size instead of returning an
empty batch. -/
theorem reset_amended (m : Memory) :
    (m.reset).experiences = [] ∧ (m.reset).info = [] ∧ (m.reset).outputs = [] ∧
      ∀ (B : ℕ) (idxs : List ℕ), (m.reset).get_random_batch B idxs = .error .valueError := by
  refine ⟨rfl, rfl, rfl, ?_⟩
  intro B idxs
  simp [Memory.get_random_batch, Memory.reset, lastSlice]

/-- The experiences of episode `e`: the boolean-mask filter
`exps[exps[:, 6] == episode_number]` (order-preserving). -/
def episodeExps (m : Memory) (e : ℕ) : List Experience :=
  m.experiences.filter (fun x => x.episode == e)

/-- Model of `np.concatenate(episode_exps[:, 0])`: the observation vectors of the
selected experiences, flattened in order. -/
def flatObs (m : Memory) (e : ℕ) : List Val :=
  ((episodeExps m e).map Experience.observation).flatten

/-- Model of `np.concatenate(episode_exps[:, 1])`: the action vectors of the
selected experiences, flattened in order. -/
def flatAct (m : Memory) (e : ℕ) : List Val :=
  ((episodeExps m e).map Experience.action).flatten

/-- Fuel-driven helper for `chunkRows` (structural recursion so concrete
instances evaluate inside the kernel). -/
def chunkRowsAux : ℕ → ℕ → List Val → List (List Val)
  | 0, _, _ => []
  | _ + 1, 0, _ => []
  | fuel + 1, d + 1, l =>
      if l = [] then []
      else l.take (d + 1) :: chunkRowsAux fuel (d + 1) (l.drop (d + 1))

/-- numpy's `reshape(-1, d)` of a flat array: consecutive rows of `d`
entries (meaningful when `d` divides the flat length, which
`get_episode_batch` checks before using it). -/
def chunkRows (d : ℕ) (l : List Val) : List (List Val) :=
  chunkRowsAux l.length d l

theorem chunkRowsAux_nil (fuel d : ℕ) : chunkRowsAux fuel d [] = [] := by
  match fuel, d with
  | 0, _ => rfl
  | _ + 1, 0 => rfl
  | _ + 1, _ + 1 => simp [chunkRowsAux]

theorem chunkRowsAux_flatten (d : ℕ) (hd : 0 < d) (ls : List (List Val)) :
    ∀ fuel : ℕ, (∀ l ∈ ls, l.length = d) → ls.length ≤ fuel →
      chunkRowsAux fuel d ls.flatten = ls := by
  induction ls with
  | nil => intro fuel _ _; simp [chunkRowsAux_nil]
  | cons l rest ih =>
      intro fuel hlens hfuel
      obtain ⟨fuel, rfl⟩ : ∃ f, fuel = f + 1 := by
        cases fuel with
        | zero => simp at hfuel
        | succ f => exact ⟨f, rfl⟩
      obtain ⟨d', rfl⟩ : ∃ d', d = d' + 1 := by
        cases d with
        | zero => omega
        | succ d' => exact ⟨d', rfl⟩
      have hl : l.length = d' + 1 := hlens l (by simp)
      have hne : l ++ rest.flatten ≠ [] := by
        intro hc
        have : l = [] := (List.append_eq_nil.mp hc).1
        simp [this] at hl
      simp only [List.flatten_cons, chunkRowsAux, if_neg hne]
      rw [← hl, List.take_left, List.drop_left, hl]
      rw [ih fuel (fun x hx => hlens x (by simp [hx])) (by simpa using hfuel)]

theorem flatten_length_const {α : Type} (d : ℕ) (ls : List (List α))
    (h : ∀ l ∈ ls, l.length = d) : ls.flatten.length = ls.length * d := by
  induction ls with
  | nil => simp
  | cons l rest ih =>
      simp only [List.flatten_cons, List.length_append, List.length_cons]
      rw [h l (by simp), ih (fun x hx => h x (by simp [hx]))]
      ring

theorem chunkRows_flatten (d : ℕ) (hd : 0 < d) (ls : List (List Val))
    (h : ∀ l ∈ ls, l.length = d) : chunkRows d ls.flatten = ls := by
  apply chunkRowsAux_flatten d hd ls _ h
  rw [flatten_length_const d ls h]
  calc ls.length = ls.length * 1 := by ring
    _ ≤ ls.length * d := Nat.mul_le_mul_left _ hd

/-- The three arrays returned by `get_episode_batch`: observation rows,
action rows and reward rows (each reward is its own row after
`reshape(-1, 1)`). -/
structure Batch where
  observations : List (List Val)
  actions : List (List Val)
  rewards : List (List Val)
deriving DecidableEq, Repr

/-- Model of `Memory.get_episode_batch`.  Failure modes, in source order:
* empty memory: `np.asarray([])` is 1-d, so `exps[:, 6]` raises
  `IndexError`;
* no experience of episode `e`: `np.concatenate` of an empty sequence
  raises `ValueError`;
* `reshape(-1, dim)` raises `ValueError` unless `dim` is positive and
  divides the flat length;
* the two row-count `assert`s and the three NaN `assert`s raise
  `AssertionError`. -/
def Memory.get_episode_batch (m : Memory) (e : ℕ) : Except MemErr Batch :=
  if m.experiences = [] then .error .indexError
  else if episodeExps m e = [] then .error .valueError
  else if ¬(m.obsDim ≠ 0 ∧ m.obsDim ∣ (flatObs m e).length) then .error .valueError
  else if ¬(m.actDim ≠ 0 ∧ m.actDim ∣ (flatAct m e).length) then .error .valueError
  else if (chunkRows m.obsDim (flatObs m e)).length ≠
      (chunkRows m.actDim (flatAct m e)).length then .error .assertionError
  else if (chunkRows m.obsDim (flatObs m e)).length ≠
      ((episodeExps m e).map (fun x => [x.reward])).length then .error .assertionError
  else if (chunkRows m.obsDim (flatObs m e)).any (fun row => row.any Val.isNan) then
    .error .assertionError
  else if (chunkRows m.actDim (flatAct m e)).any (fun row => row.any Val.isNan) then
    .error .assertionError
  else if ((episodeExps m e).map (fun x => [x.reward])).any (fun row => row.any Val.isNan) then
    .error .assertionError
  else .ok ⟨chunkRows m.obsDim (flatObs m e), chunkRows m.actDim (flatAct m e),
            (episodeExps m e).map (fun x => [x.reward])⟩

/-- The shape part of the data-model invariant: positive declared
dimensions and every stored observation/action matching them. -/
def shapesOk (m : Memory) : Prop :=
  0 < m.obsDim ∧ 0 < m.actDim ∧
    ∀ x ∈ m.experiences, x.observation.length = m.obsDim ∧ x.action.length = m.actDim

/-- NaN-freedom of the stored experiences. -/
def nanFreeExps (m : Memory) : Prop :=
  ∀ x ∈ m.experiences,
    (∀ v ∈ x.observation, v.isNan = false) ∧ (∀ v ∈ x.action, v.isNan = false) ∧
      x.reward.isNan = false

/-- Well-formed stored experiences: right shapes and no NaN. -/
def wellFormed (m : Memory) : Prop := shapesOk m ∧ nanFreeExps m

theorem flatObs_chunk (m : Memory) (e : ℕ) (h : shapesOk m) :
    chunkRows m.obsDim (flatObs m e) = (episodeExps m e).map Experience.observation := by
  apply chunkRows_flatten _ h.1
  intro l hl
  rcases List.mem_map.mp hl with ⟨x, hx, rfl⟩
  exact (h.2.2 x (List.mem_of_mem_filter hx)).1

theorem flatAct_chunk (m : Memory) (e : ℕ) (h : shapesOk m) :
    chunkRows m.actDim (flatAct m e) = (episodeExps m e).map Experience.action := by
  apply chunkRows_flatten _ h.2.1
  intro l hl
  rcases List.mem_map.mp hl with ⟨x, hx, rfl⟩
  exact (h.2.2 x (List.mem_of_mem_filter hx)).2

theorem get_episode_batch_ok_inv (m : Memory) (e : ℕ) (b : Batch)
    (hok : m.get_episode_batch e = .ok b) :
    (b.observations.length = b.actions.length ∧
      b.observations.length = b.rewards.length) ∧
    (∀ row ∈ b.observations, ∀ v ∈ row, v.isNan = false) ∧
    (∀ row ∈ b.actions, ∀ v ∈ row, v.isNan = false) ∧
    (∀ row ∈ b.rewards, ∀ v ∈ row, v.isNan = false) := by
  rw [Memory.get_episode_batch] at hok
  split_ifs at hok with h1 h2 h3 h4 h5 h6 h7 h8 h9
  injection hok with hok
  subst hok
  refine ⟨⟨not_ne_iff.mp h5, not_ne_iff.mp h6⟩, ?_, ?_, ?_⟩
  · intro row hrow v hv
    by_contra hc
    exact h7 (List.any_eq_true.mpr
      ⟨row, hrow, List.any_eq_true.mpr ⟨v, hv, by simpa using hc⟩⟩)
  · intro row hrow v hv
    by_contra hc
    exact h8 (List.any_eq_true.mpr
      ⟨row, hrow, List.any_eq_true.mpr ⟨v, hv, by simpa using hc⟩⟩)
  · intro row hrow v hv
    by_contra hc
    exact h9 (List.any_eq_true.mpr
      ⟨row, hrow, List.any_eq_true.mpr ⟨v, hv, by simpa using hc⟩⟩)

theorem episodeExps_sub (m : Memory) (e : ℕ) {x : Experience}
    (hx : x ∈ episodeExps m e) : x ∈ m.experiences :=
  List.mem_of_mem_filter hx

theorem get_episode_batch_guards (m : Memory) (e : ℕ) (hs : shapesOk m)
    (hmatch : episodeExps m e ≠ []) :
    m.get_episode_batch e =
      (if ((episodeExps m e).map Experience.observation).any
          (fun row => row.any Val.isNan) then .error .assertionError
       else if ((episodeExps m e).map Experience.action).any
          (fun row => row.any Val.isNan) then .error .assertionError
       else if ((episodeExps m e).map (fun x => [x.reward])).any
          (fun row => row.any Val.isNan) then .error .assertionError
       else .ok ⟨(episodeExps m e).map Experience.observation,
                 (episodeExps m e).map Experience.action,
                 (episodeExps m e).map (fun x => [x.reward])⟩) := by
  have hne : m.experiences ≠ [] := by
    intro hc
    exact hmatch (by simp [episodeExps, hc])
  have hobs : ∀ l ∈ (episodeExps m e).map Experience.observation, l.length = m.obsDim := by
    intro l hl
    rcases List.mem_map.mp hl with ⟨x, hx, rfl⟩
    exact (hs.2.2 x (episodeExps_sub m e hx)).1
  have hact : ∀ l ∈ (episodeExps m e).map Experience.action, l.length = m.actDim := by
    intro l hl
    rcases List.mem_map.mp hl with ⟨x, hx, rfl⟩
    exact (hs.2.2 x (episodeExps_sub m e hx)).2
  have hdobs : m.obsDim ∣ (flatObs m e).length := by
    rw [flatObs, flatten_length_const m.obsDim _ hobs]
    exact dvd_mul_left _ _
  have hdact : m.actDim ∣ (flatAct m e).length := by
    rw [flatAct, flatten_length_const m.actDim _ hact]
    exact dvd_mul_left _ _
  rw [Memory.get_episode_batch, if_neg hne, if_neg hmatch,
    if_neg (not_not_intro ⟨Nat.pos_iff_ne_zero.mp hs.1, hdobs⟩),
    if_neg (not_not_intro ⟨Nat.pos_iff_ne_zero.mp hs.2.1, hdact⟩),
    flatObs_chunk m e hs, flatAct_chunk m e hs,
    if_neg (by simp), if_neg (by simp)]

theorem get_episode_batch_nan (m : Memory) (e : ℕ) (x : Experience)
    (hs : shapesOk m) (hx : x ∈ episodeExps m e)
    (hnan : x.observation.any Val.isNan = true ∨ x.action.any Val.isNan = true ∨
      x.reward.isNan = true) :
    m.get_episode_batch e = .error .assertionError := by
  rw [get_episode_batch_guards m e hs (List.ne_nil_of_mem hx)]
  rcases hnan with hobs | hact | hrew
  · rw [if_pos (List.any_eq_true.mpr
      ⟨x.observation, List.mem_map_of_mem Experience.observation hx, hobs⟩)]
  · by_cases h7 : ((episodeExps m e).map Experience.observation).any
        (fun row => row.any Val.isNan) = true
    · rw [if_pos h7]
    · rw [if_neg h7, if_pos (List.any_eq_true.mpr
        ⟨x.action, List.mem_map_of_mem Experience.action hx, hact⟩)]
  · by_cases h7 : ((episodeExps m e).map Experience.observation).any
        (fun row => row.any Val.isNan) = true
    · rw [if_pos h7]
    · by_cases h8 : ((episodeExps m e).map Experience.action).any
          (fun row => row.any Val.isNan) = true
      · rw [if_neg h7, if_pos h8]
      · rw [if_neg h7, if_neg h8, if_pos (List.any_eq_true.mpr
          ⟨[x.reward], List.mem_map_of_mem (fun y => [y.reward]) hx, by simp [hrew]⟩)]

theorem get_episode_batch_wf (m : Memory) (e : ℕ)
    (hwf : wellFormed m) (hmatch : episodeExps m e ≠ []) :
    ∃ b : Batch, m.get_episode_batch e = .ok b ∧
      b.observations.length = b.actions.length ∧
      b.observations.length = b.rewards.length := by
  rw [get_episode_batch_guards m e hwf.1 hmatch]
  have hno : ∀ (f : Experience → List Val),
      (∀ x ∈ m.experiences, ∀ v ∈ f x, v.isNan = false) →
      ((episodeExps m e).map f).any (fun row => row.any Val.isNan) = false := by
    intro f hf
    rw [List.any_eq_false]
    intro row hrow
    rcases List.mem_map.mp hrow with ⟨x, hx, rfl⟩
    simp only [List.any_eq_true, not_exists, not_and]
    intro v hv
    simp [hf x (episodeExps_sub m e hx) v hv]
  rw [if_neg (by simp [hno Experience.observation (fun x hx => (hwf.2 x hx).1)]),
    if_neg (by simp [hno Experience.action (fun x hx => (hwf.2 x hx).2.1)]),
    if_neg (by simp [hno (fun x => [x.reward])
      (fun x hx v hv => by rcases List.mem_singleton.mp hv with rfl; exact (hwf.2 x hx).2.2)])]
  exact ⟨_, rfl, by simp, by simp⟩

/-- Claim C6: `get_episode_batch` never returns a batch with a NaN or with
disagreeing row counts: (1) any returned batch has equal observation,
action and reward row counts and is NaN-free; (2) under the shape
invariant, a NaN anywhere in a selected experience makes it fail with
`AssertionError` instead of returning; (3) for well-formed stored
experiences (and an episode that has experiences) it returns a batch with
identical row counts — the assertions never fire. -/
theorem get_episode_batch_invariants :
    (∀ (m : Memory) (e : ℕ) (b : Batch), m.get_episode_batch e = .ok b →
        (b.observations.length = b.actions.length ∧
          b.observations.length = b.rewards.length) ∧
        (∀ row ∈ b.observations, ∀ v ∈ row, v.isNan = false) ∧
        (∀ row ∈ b.actions, ∀ v ∈ row, v.isNan = false) ∧
        (∀ row ∈ b.rewards, ∀ v ∈ row, v.isNan = false)) ∧
    (∀ (m : Memory) (e : ℕ) (x : Experience), shapesOk m → x ∈ episodeExps m e →
        (x.observation.any Val.isNan = true ∨ x.action.any Val.isNan = true ∨
          x.reward.isNan = true) →
        m.get_episode_batch e = .error .assertionError) ∧
    (∀ (m : Memory) (e : ℕ), wellFormed m → episodeExps m e ≠ [] →
        ∃ b : Batch, m.get_episode_batch e = .ok b ∧
          b.observations.length = b.actions.length ∧
          b.observations.length = b.rewards.length) :=
  ⟨get_episode_batch_ok_inv,
   fun m e x hs hx hnan => get_episode_batch_nan m e x hs hx hnan,
   get_episode_batch_wf⟩

instance (m : Memory) : Decidable (shapesOk m) :=
  decidable_of_iff
    (0 < m.obsDim ∧ 0 < m.actDim ∧
      ∀ x ∈ m.experiences, x.observation.length = m.obsDim ∧ x.action.length = m.actDim)
    Iff.rfl

instance (m : Memory) : Decidable (nanFreeExps m) :=
  decidable_of_iff
    (∀ x ∈ m.experiences,
      (∀ v ∈ x.observation, v.isNan = false) ∧ (∀ v ∈ x.action, v.isNan = false) ∧
        x.reward.isNan = false)
    Iff.rfl

instance (m : Memory) : Decidable (wellFormed m) :=
  inferInstanceAs (Decidable (_ ∧ _))

def memC6 : Memory := ⟨1, 1, 9/10, 3, [expAt 0], [], []⟩

def memC6n : Memory :=
  ⟨1, 1, 9/10, 3, [⟨[.nan], [.num 0], .num 0, [.num 0], false, 0, 0⟩], [], []⟩

/-- Witness for C6: a well-formed one-experience memory yields a NaN-free
batch with matching row counts, and injecting a NaN observation makes the
extraction fail with `AssertionError`. -/
theorem get_episode_batch_invariants_witness :
    (∀ row ∈ (Batch.mk [[.num 0]] [[.num 0]] [[.num 0]]).observations,
        ∀ v ∈ row, v.isNan = false) ∧
      memC6n.get_episode_batch 0 = .error .assertionError ∧
      ∃ b : Batch, memC6.get_episode_batch 0 = .ok b ∧
        b.observations.length = b.actions.length ∧
        b.observations.length = b.rewards.length :=
  ⟨(get_episode_batch_invariants.1 memC6 0 ⟨[[.num 0]], [[.num 0]], [[.num 0]]⟩
      (by decide)).2.1,
   get_episode_batch_invariants.2.1 memC6n 0
      ⟨[.nan], [.num 0], .num 0, [.num 0], false, 0, 0⟩
      (by decide) (by decide) (Or.inl (by decide)),
   get_episode_batch_invariants.2.2 memC6 0 (by decide) (by decide)⟩

/-- Claim C10: If no stored experience has episode index `e` (in particular
on an empty memory), `get_episode_batch e` raises (an `IndexError` on an
empty memory, a `ValueError` from `np.concatenate` otherwise) instead of
returning empty arrays. -/
theorem get_episode_batch_missing (m : Memory) (e : ℕ)
    (h : ∀ x ∈ m.experiences, x.episode ≠ e) :
    ∃ err, m.get_episode_batch e = .error err := by
  rw [Memory.get_episode_batch]
  by_cases he : m.experiences = []
  · rw [if_pos he]
    exact ⟨_, rfl⟩
  · have hfil : episodeExps m e = [] := by
      rw [episodeExps, List.filter_eq_nil_iff]
      intro x hx
      simpa using h x hx
    rw [if_neg he, if_pos hfil]
    exact ⟨_, rfl⟩

def memC10 : Memory := ⟨1, 1, 9/10, 2, [], [], []⟩

/-- Witness for C10 on a concrete empty memory. -/
theorem get_episode_batch_missing_witness :
    ∃ err, memC10.get_episode_batch 5 = .error err :=
  get_episode_batch_missing memC10 5 (by decide)

/-! ## ActorCritic (`actor_critic.py`)

The approximators are external collaborators; `_learn` only calls
`critic.predict`, `critic.improve` and `actor.improve`, so they are
modelled as function records over batched values (flattened `ℚ` arrays).
-/

/-- The critic contract: `predict(obs) -> value_estimate` and
`improve(obs, target) -> (td_error, loss)`. -/
structure Critic where
  predict : List ℚ → List ℚ
  improve : List ℚ → List ℚ → List ℚ × ℚ

/-- The actor contract: `improve(obs, actions, advantage) -> loss`. -/
structure Actor where
  improve : List ℚ → List ℚ → List ℚ → ℚ

/-- One observable approximator call made during `_learn`, in the order the
calls are issued (the trace records its arguments and results). -/
inductive Event where
  | criticPredict (nextObs result : List ℚ)
  | criticImprove (obs target tdError : List ℚ) (loss : ℚ)
  | actorImprove (obs actions advantage : List ℚ) (loss : ℚ)
deriving DecidableEq

/-- Model of `ActorCritic._learn`.  In source order: the TD(0) target
`rew + self.discount * critic.predict(next_obs)` (numpy elementwise,
modelled by `zipWith`) is recorded into `info['value fctn target']`; the
critic is improved toward it, producing `(td_error, critic_loss)`; the
actor is improved with that same `td_error` as advantage; `td_error`,
`critic_loss` and `actor_loss` are appended to `info`; the returned loss is
`critic_loss + actor_loss`.  The result also carries the updated memory and
the trace of approximator calls. -/
def learn (discount : ℚ) (critic : Critic) (actor : Actor) (mem : Memory)
    (obs actions rew next_obs : List ℚ) : ℚ × Memory × List Event :=
  let pred := critic.predict next_obs
  let target := List.zipWith (fun r p => r + discount * p) rew pred
  let mem1 := { mem with info := mem.info ++ [("value fctn target", InfoVal.arr target)] }
  let td_error := (critic.improve obs target).1
  let critic_loss := (critic.improve obs target).2
  let actor_loss := actor.improve obs actions td_error
  let mem2 := { mem1 with info := mem1.info ++
      [("td_error", InfoVal.arr td_error), ("critic_loss", InfoVal.scalar critic_loss),
       ("actor_loss", InfoVal.scalar actor_loss)] }
  (critic_loss + actor_loss, mem2,
   [Event.criticPredict next_obs pred,
    Event.criticImprove obs target td_error critic_loss,
    Event.actorImprove obs actions td_error actor_loss])

/-- Claim C2: In every invocation of `learn`: the critic target is
`reward + γ · critic.predict(next_observations)` (elementwise), the
`critic.improve` call happens strictly before the `actor.improve` call, and
the advantage passed to `actor.improve` is exactly the TD error returned by
that same `critic.improve` call — the same `td` ties the two events. -/
theorem learn_critic_before_actor (discount : ℚ) (critic : Critic) (actor : Actor)
    (mem : Memory) (obs actions rew next_obs : List ℚ) :
    ∃ (i j : ℕ) (td : List ℚ) (closs aloss : ℚ),
      i < j ∧
      (learn discount critic actor mem obs actions rew next_obs).2.2.get? i =
        some (.criticImprove obs
          (List.zipWith (fun r p => r + discount * p) rew (critic.predict next_obs)) td closs) ∧
      (learn discount critic actor mem obs actions rew next_obs).2.2.get? j =
        some (.actorImprove obs actions td aloss) ∧
      td = (critic.improve obs
        (List.zipWith (fun r p => r + discount * p) rew (critic.predict next_obs))).1 :=
  ⟨1, 2, _, _, _, by omega, rfl, rfl, rfl⟩

/-! ## `Memory.output_results` — episode-level statistics -/

def insertSorted (n : ℕ) : List ℕ → List ℕ
  | [] => [n]
  | x :: xs => if n ≤ x then n :: x :: xs else x :: insertSorted n xs

/-- The distinct episode indices in ascending order: the index of
`df_ep = df_stp.groupby(by=['episode']).sum()` (pandas sorts group keys). -/
def episodeKeys (exps : List Experience) : List ℕ :=
  (exps.map Experience.episode).dedup.foldr insertSorted []

/-- The summed reward of episode `e`: pandas `groupby(...).sum()` skips
NaN, so a NaN reward contributes `0` (`Val.toQ`). -/
def episodeRewardSum (exps : List Experience) (e : ℕ) : ℚ :=
  ((exps.filter (fun x => x.episode == e)).map (fun x => x.reward.toQ)).sum

/-- The `reward` column of `df_ep`: one summed reward per episode. -/
def epRewardColumn (exps : List Experience) : List ℚ :=
  (episodeKeys exps).map (episodeRewardSum exps)

def cummaxAux (cur : ℚ) : List ℚ → List ℚ
  | [] => []
  | x :: xs => max cur x :: cummaxAux (max cur x) xs

/-- pandas `Series.cummax` on a NaN-free column: the running maximum. -/
def cummax : List ℚ → List ℚ
  | [] => []
  | x :: xs => x :: cummaxAux x xs

/-- Python `int(df_ep.shape[0] * 0.1)`: truncation of `0.1 × n`, i.e.
`⌊n / 10⌋` (exact at every episode count appearing in the statements
below). -/
def rollWindow (n : ℕ) : ℕ := n / 10

/-- The values inside the size-`w` rolling window ending at index `i`. -/
def winSlice (w : ℕ) (xs : List ℚ) (i : ℕ) : List ℚ :=
  (xs.take (i + 1)).drop (i + 1 - w)

/-- pandas `Series.rolling(window, min_periods=1).mean()`: on an empty
column pandas' `_apply` short-circuits `values.size == 0` and returns an
empty result; otherwise the cython kernel's `_check_minp` raises
`ValueError` when `min_periods > window`, and an entry is NaN when its
window holds fewer than `min_periods` observations, else the mean over the
window. -/
def rollingMean (w minp : ℕ) (xs : List ℚ) : Except MemErr (List Val) :=
  if xs.length = 0 then .ok []
  else if w < minp then .error .valueError
  else .ok ((List.range xs.length).map (fun i =>
    if minp ≤ (winSlice w xs i).length then
      .num ((winSlice w xs i).sum / (winSlice w xs i).length) else .nan))

/-- Sample variance (`ddof = 1`): the square of the pandas rolling std. -/
def sampleVar (l : List ℚ) : ℚ :=
  ((l.map (fun x => (x - l.sum / l.length) ^ 2)).sum) / ((l.length : ℚ) - 1)

/-- Model of `pd.rolling_std(reward, window, min_periods=1)`: the same
empty-column short-circuit and `min_periods > window` check as the rolling
mean; an entry is NaN when its window holds fewer than `min_periods`
observations or fewer than two (the sample std of one value is `0/0`),
else the std — recorded as the sample variance, its square, to stay inside
`ℚ`. -/
def rollingStd (w minp : ℕ) (xs : List ℚ) : Except MemErr (List Val) :=
  if xs.length = 0 then .ok []
  else if w < minp then .error .valueError
  else .ok ((List.range xs.length).map (fun i =>
    if minp ≤ (winSlice w xs i).length ∧ 2 ≤ (winSlice w xs i).length then
      .num (sampleVar (winSlice w xs i)) else .nan))

/-- The columns of the episode table `df_ep` that `output_results`
computes. -/
structure EpStats where
  episodes : List ℕ
  reward : List ℚ
  cumMaxReward : List ℚ
  rollMean : List Val
  rollStd : List Val
deriving DecidableEq, Repr

/-- The episode-level statistics of `Memory.output_results`: group the step
table by episode and sum, then add `cum max reward` (`reward.cummax()`),
`rolling mean` and `rolling std` with `window = int(df_ep.shape[0] * 0.1)`
and `min_periods = 1`. -/
def outputEpStats (exps : List Experience) : Except MemErr EpStats :=
  match rollingMean (rollWindow (epRewardColumn exps).length) 1 (epRewardColumn exps) with
  | .error err => .error err
  | .ok rm =>
      match rollingStd (rollWindow (epRewardColumn exps).length) 1 (epRewardColumn exps) with
      | .error err => .error err
      | .ok rs =>
          .ok ⟨episodeKeys exps, epRewardColumn exps, cummax (epRewardColumn exps), rm, rs⟩

/-- Model of `Memory.output_results`, restricted to the episode-table statistics the
claims are about (the step table is `experiences` itself and `outputs` is
the returned dictionary). -/
def Memory.output_results (m : Memory) : Except MemErr EpStats :=
  outputEpStats m.experiences

theorem chain_cummaxAux (cur : ℚ) (l : List ℚ) :
    List.Chain (· ≤ ·) cur (cummaxAux cur l) := by
  induction l generalizing cur with
  | nil => exact List.Chain.nil
  | cons x xs ih => exact List.Chain.cons (le_max_left _ _) (ih (max cur x))

theorem chain_cummax (l : List ℚ) : List.Chain' (· ≤ ·) (cummax l) := by
  cases l with
  | nil => simp [cummax]
  | cons x xs => exact chain_cummaxAux x xs

theorem output_results_cumMax (m : Memory) (s : EpStats)
    (hok : m.output_results = .ok s) :
    s.cumMaxReward = cummax (epRewardColumn m.experiences) := by
  rw [Memory.output_results, outputEpStats] at hok
  split at hok
  · exact absurd hok (by simp)
  · split at hok
    · exact absurd hok (by simp)
    · injection hok with hok
      rw [← hok]

/-- Claim C9: The `cum max reward` column computed by `output_results` —
`cummax` of the summed-episode-reward column, both for every experience
history and inside every successfully returned `EpStats` — is
non-decreasing across episodes. -/
theorem cum_max_reward_monotone (m : Memory) :
    List.Chain' (· ≤ ·) (cummax (epRewardColumn m.experiences)) ∧
      match m.output_results with
      | .ok s => s.cumMaxReward = cummax (epRewardColumn m.experiences) ∧
          List.Chain' (· ≤ ·) s.cumMaxReward
      | .error _ => True := by
  refine ⟨chain_cummax _, ?_⟩
  cases hres : m.output_results with
  | error err => trivial
  | ok s =>
      have hcol := output_results_cumMax m s hres
      exact ⟨hcol, hcol ▸ chain_cummax _⟩

def expEp (k : ℕ) : Experience :=
  ⟨[.num 0], [.num 0], .num 0, [.num 0], false, 0, k⟩

def mem10 : Memory := ⟨1, 1, 9/10, 2, (List.range 10).map expEp, [], []⟩

def memC7 : Memory := ⟨1, 1, 9/10, 2, [expEp 0], [], []⟩

/-- Counterexample to claim C7: With a single episode the window is
`int(1 * 0.1) = 0` — the code has no minimum window of 1 — and
`rolling(0, min_periods=1)` raises `ValueError` (pandas requires
`min_periods <= window`), so the rolling statistics are an error rather
than defined. -/
theorem rolling_window_counterexample :
    memC7.output_results = .error .valueError := by decide

theorem rollingMean_ok (w minp : ℕ) (xs : List ℚ) (h : minp ≤ w) :
    rollingMean w minp xs = .ok ((List.range xs.length).map (fun i =>
      if minp ≤ (winSlice w xs i).length then
        .num ((winSlice w xs i).sum / (winSlice w xs i).length) else .nan)) := by
  rw [rollingMean]
  by_cases hx : xs.length = 0
  · rw [if_pos hx]
    simp [hx]
  · rw [if_neg hx, if_neg (by omega)]

theorem rollingStd_ok (w minp : ℕ) (xs : List ℚ) (h : minp ≤ w) :
    rollingStd w minp xs = .ok ((List.range xs.length).map (fun i =>
      if minp ≤ (winSlice w xs i).length ∧ 2 ≤ (winSlice w xs i).length then
        .num (sampleVar (winSlice w xs i)) else .nan)) := by
  rw [rollingStd]
  by_cases hx : xs.length = 0
  · rw [if_pos hx]
    simp [hx]
  · rw [if_neg hx, if_neg (by omega)]

theorem winSlice_length (w : ℕ) (xs : List ℚ) (i : ℕ) (h : i < xs.length) :
    (winSlice w xs i).length = (i + 1) - (i + 1 - w) := by
  rw [winSlice, List.length_drop, List.length_take]
  omega

/-- Amended claim C7: `output_results` uses `window = int(0.1 × episodes)`
with `min_periods = 1` and no minimum window: with zero episodes the
rolling columns are empty and no error is raised (pandas short-circuits an
empty column); with 1–9 episodes the window is 0 and the rolling
computation raises `ValueError`; with at least 10 episodes the
rolling-mean entries are all defined and the rolling-std column is
produced without error, though its first entry is NaN (the one-observation
sample std). -/
theorem rolling_window_amended (m : Memory) :
    ((epRewardColumn m.experiences).length = 0 →
        m.output_results = .ok ⟨[], [], [], [], []⟩) ∧
      (1 ≤ (epRewardColumn m.experiences).length ∧
          (epRewardColumn m.experiences).length < 10 →
        m.output_results = .error .valueError) ∧
      (10 ≤ (epRewardColumn m.experiences).length →
        ∃ s : EpStats, m.output_results = .ok s ∧
          (∀ v ∈ s.rollMean, v.isNan = false) ∧
          s.rollStd[0]? = some .nan) := by
  refine ⟨?_, ?_, ?_⟩
  · intro h0
    have hcol : epRewardColumn m.experiences = [] := List.length_eq_zero.mp h0
    have hkeys : episodeKeys m.experiences = [] := by
      rw [epRewardColumn] at hcol
      exact List.map_eq_nil_iff.mp hcol
    rw [Memory.output_results, outputEpStats, hcol, hkeys]
    rfl
  · intro h
    have hw : rollWindow (epRewardColumn m.experiences).length = 0 := by
      rw [rollWindow]
      omega
    rw [Memory.output_results, outputEpStats, hw]
    rw [show rollingMean 0 1 (epRewardColumn m.experiences) = .error .valueError from
      by rw [rollingMean, if_neg (by omega), if_pos (by omega)]]
  · intro h
    have hw1 : 1 ≤ rollWindow (epRewardColumn m.experiences).length := by
      rw [rollWindow]
      omega
    rw [Memory.output_results, outputEpStats, rollingMean_ok _ _ _ hw1,
      rollingStd_ok _ _ _ hw1]
    refine ⟨_, rfl, ?_, ?_⟩
    · intro v hv
      rcases List.mem_map.mp hv with ⟨i, hi, rfl⟩
      rw [if_pos (by
        rw [winSlice_length _ _ _ (List.mem_range.mp hi)]
        omega)]
      rfl
    · rw [List.getElem?_map, List.getElem?_range (by omega), Option.map_some']
      rw [if_neg (by
        rw [winSlice_length _ _ _ (by omega)]
        omega)]

def memEmpty7 : Memory := ⟨1, 1, 9/10, 2, [], [], []⟩

/-- Witness for the amended C7: the empty memory succeeding with empty
columns, the error case at one episode, and the defined case at ten
episodes. -/
theorem rolling_window_amended_witness :
    memEmpty7.output_results = .ok ⟨[], [], [], [], []⟩ ∧
      memC7.output_results = .error .valueError ∧
      ∃ s : EpStats, mem10.output_results = .ok s ∧
        (∀ v ∈ s.rollMean, v.isNan = false) ∧
        s.rollStd[0]? = some .nan :=
  ⟨(rolling_window_amended memEmpty7).1 (by decide),
   (rolling_window_amended memC7).2.1 (by decide),
   (rolling_window_amended mem10).2.2 (by decide)⟩

end EnergyPy
